import Mathlib

/-!
Verification model of `tools/paper_with_code/Self_Instruct/gpt_api.py`: a
batch request pipeline that splits prompts into batches, replays cached
records from a previous output file, dispatches uncached batches to a remote
completion service through `make_requests`, and writes one JSON record per
prompt.

Conventions of the shallow embedding:
- JSON values are the inductive `Json`; the output file is a list of `Json`
  records (one per line), serialized by `dumps` (a model of `json.dumps`
  with Python's default separators and simplified string escaping).
- The remote capability `client.completions.create` is a parameter
  `remote : GenParams → Nat → Except String Response`: invocation number
  `i` (0-based) either returns a response or raises (error = exception).
- `datetime.now()` is a parameter `clock : Nat → String` indexed by how many
  timestamps were taken inside the call.
- Python `int` arguments that may be negative are `Int`; list indices and
  counts are `Nat`.
- Raising an exception is `Except.error msg`; the message mirrors the Python
  exception. On an error the partially written output file (a prefix of
  complete records) is outside the model.
-/

/-- JSON values, the payloads of input lines, cached records and output
records. Numeric payloads are modelled as integers; floats never flow through
the logic being verified. -/
inductive Json where
  | null : Json
  | str (s : String) : Json
  | num (n : Int) : Json
  | arr (elems : List Json) : Json
  | obj (fields : List (String × Json)) : Json

/-- Lookup of a field inside the field list of a JSON object
(first match; keys of parsed JSON objects are unique). -/
def fieldLookup : List (String × Json) → String → Option Json
  | [], _ => none
  | (k2, v) :: rest, k => if k2 = k then some v else fieldLookup rest k

/-- Dictionary access `data[k]` on a parsed JSON value: `none` models the
KeyError (or TypeError on a non-object) that `data[k]` raises in Python. -/
def jLookup : Json → String → Option Json
  | .obj fields, k => fieldLookup fields k
  | _, _ => none

/-- Simplified model of the string escaping done by `json.dumps`: backslashes
and double quotes are escaped; control/non-ASCII escaping is omitted (the
fixtures in this file contain neither). -/
def jsonEscape (s : String) : String :=
  ⟨s.data.flatMap (fun c =>
    if c = '\\' then ['\\', '\\'] else if c = '\x22' then ['\\', '\x22'] else [c])⟩

mutual
/-- Model of `json.dumps` with Python's default separators
(`", "` between items, `": "` after keys). -/
def dumps : Json → String
  | .null => "null"
  | .str s => "\x22" ++ jsonEscape s ++ "\x22"
  | .num n => toString n
  | .arr xs => "[" ++ dumpsArr xs ++ "]"
  | .obj fs => "\x7b" ++ dumpsObj fs ++ "\x7d"

/-- Comma-joined serialization of the elements of a JSON array. -/
def dumpsArr : List Json → String
  | [] => ""
  | [x] => dumps x
  | x :: y :: xs => dumps x ++ ", " ++ dumpsArr (y :: xs)

/-- Comma-joined serialization of the fields of a JSON object. -/
def dumpsObj : List (String × Json) → String
  | [] => ""
  | [(k, v)] => "\x22" ++ jsonEscape k ++ "\x22: " ++ dumps v
  | (k, v) :: y :: xs =>
    "\x22" ++ jsonEscape k ++ "\x22: " ++ dumps v ++ ", " ++ dumpsObj (y :: xs)
end

/-- Raw response object returned by a successful
`client.completions.create` call: its `choices` attribute (a list of
completion-choice payloads, opaque to the pipeline) plus the remaining
attributes of the object, opaque to the pipeline as well. -/
structure Response where
  choices : List Json
  extra : List (String × Json)

/-- JSON rendering of the whole raw response object, used where the source
stores the entire response (single-prompt branch of `make_requests`). -/
def respToJson (r : Response) : Json :=
  .obj (("choices", .arr r.choices) :: r.extra)

/-- Generation parameters forwarded to the remote call. Only `max_tokens`
(bound to `target_length`) and `n` (used for slicing the flat choice list)
are ever read by `make_requests`; the float-valued parameters are opaque
scalars of the model. -/
structure GenParams where
  max_tokens : Int
  temperature : Json
  top_p : Json
  frequency_penalty : Json
  presence_penalty : Json
  stop_sequences : List String
  logprobs : Int
  n : Nat
  best_of : Int

/-- Argument `prompts` of `make_requests`: the source distinguishes a plain
string from a list of strings with `isinstance(prompts, list)`. -/
inductive Prompts where
  | single (p : String) : Prompts
  | batch (ps : List String) : Prompts

/-- Record dictionary built by `make_requests`:
`{"prompt": ..., "response": ... or None, "created_at": ...}`, with the
field order of the source's dict literal. -/
def mkRecord (p : String) (resp : Option Json) (t : String) : Json :=
  .obj [("prompt", .str p), ("response", resp.getD .null), ("created_at", .str t)]

/-- Translation of the `for j, prompt in enumerate(prompts)` loop of
`make_requests`: record `j` holds
`{"choices": response.choices[j * n : (j + 1) * n]}` when a response is
present (`(j + 1) * n - j * n = n` elements starting at `j * n`) and `None`
otherwise, plus the prompt and a timestamp. `j` is the running index. -/
def batchRecords (resp : Option Response) (clock : Nat → String) (nn : Nat) :
    Nat → List String → List Json
  | _, [] => []
  | j, p :: ps =>
    mkRecord p
      (resp.map (fun r => Json.obj
        [("choices", Json.arr ((r.choices.drop (j * nn)).take nn))]))
      (clock j)
      :: batchRecords resp clock nn (j + 1) ps

/-- Observable outcome of one `make_requests` call: how many remote
invocations and backoff sleeps were performed, and either the returned
record list or the exception that propagated (the source installs no
exception handler, so a raising remote call escapes the function). -/
structure MRResult where
  calls : Nat
  sleeps : Nat
  outcome : Except String (List Json)

/-- Shallow embedding of `make_requests` (gpt_api.py, lines 32-92).
The retry loop

    response = None
    retry_cnt = 0
    backoff_time = 30
    while retry_cnt <= retries:
        response = client.completions.create(...)
        break

executes its body at most once because of the unconditional `break`: if
`0 <= retries` there is exactly one remote invocation, whose exception (if
any) propagates unhandled; if `retries < 0` the body never runs and
`response` stays `None`. `backoff_time` is never read and the source
contains no `sleep` call, so `sleeps` is always `0`. -/
def make_requests (remote : GenParams → Nat → Except String Response)
    (clock : Nat → String) (prompts : Prompts) (params : GenParams)
    (retries : Int) : MRResult :=
  let target_length := params.max_tokens
  let loopStep : Nat × Except String (Option Response) :=
    if 0 ≤ retries then
      match remote { params with max_tokens := target_length } 0 with
      | .error e => (1, .error e)
      | .ok r => (1, .ok (some r))
    else (0, .ok none)
  match loopStep with
  | (c, .error e) => ⟨c, 0, .error e⟩
  | (c, .ok resp) =>
    match prompts with
    | .batch ps => ⟨c, 0, .ok (batchRecords resp clock params.n 0 ps)⟩
    | .single p => ⟨c, 0, .ok [mkRecord p (resp.map respToJson) (clock 0)]⟩

/-- In-memory store `existing_responses`. Only `p in existing_responses` and
`existing_responses[p]` are ever observed, so the dict is an association
list where insertion conses and lookup takes the most recent entry —
exactly Python's last-write-wins lookup semantics. Keys are the raw JSON
values `data["prompt"]` (not necessarily strings). -/
abbrev Store := List (Json × Json)

/-- Lookup `existing_responses[p]` for a prompt string `p`: an entry matches
iff its key is the JSON string `p`; entries with non-string keys can never
match a prompt. The most recently inserted match wins. -/
def storeLookup : Store → String → Option Json
  | [], _ => none
  | (Json.str q, v) :: rest, p => if q = p then some v else storeLookup rest p
  | (_, _) :: rest, p => storeLookup rest p

/-- Loading loop of `existing_responses` (gpt_api.py, lines 188-193): for
each parsed line `data` of the existing output file, execute
`existing_responses[data["prompt"]] = data`. A record without a `prompt`
field makes the run abort (`KeyError`; a `TypeError` on a non-object line is
folded into the same fatal error). -/
def loadStore : List Json → Store → Except String Store
  | [], st => .ok st
  | r :: rs, st =>
    match jLookup r "prompt" with
    | some k => loadStore rs ((k, r) :: st)
    | none => .error "KeyError: prompt"

/-- Index sequence of `range(0, n, step)` for a Python `int` step. A zero
step raises `ValueError`; a negative step counts downward from 0 while
`i > n`, which is immediately false for `n ≥ 0`, so the range is empty; a
positive step yields `0, step, 2*step, ...` below `n`, i.e. exactly
`ceil(n / step)` indices. -/
def pyRangeIdx (n : Nat) (step : Int) : Except String (List Nat) :=
  if step = 0 then .error "ValueError: range() arg 3 must not be zero"
  else if step < 0 then .ok []
  else .ok ((List.range ((n + step.toNat - 1) / step.toNat)).map (· * step.toNat))

/-- Batch decomposition performed by the main loop: the batch started at
index `i` is the slice `all_prompts[i : i + request_batch_size]`, for `i`
drawn from `range(0, len(all_prompts), request_batch_size)`. -/
def splitBatches (prompts : List String) (batchSize : Int) :
    Except String (List (List String)) :=
  match pyRangeIdx prompts.length batchSize with
  | .error e => .error e
  | .ok idxs => .ok (idxs.map (fun i => (prompts.drop i).take batchSize.toNat))

/-- Body of the main loop (gpt_api.py, lines 201-216) over the list of batch
start indices. For each batch: if every prompt is in `existing_responses`,
the cached records are written (contributing zero remote calls); otherwise
the source calls `make_requests(engine=args.engine, ...)` — but
`make_requests` has no parameter named `engine`, so Python raises
`TypeError` at argument binding, before any remote invocation, and the run
aborts. Returns the records written and the number of remote calls. -/
def writeBatches (store : Store) (prompts : List String) (s : Nat) :
    List Nat → Except String (List Json × Nat)
  | [] => .ok ([], 0)
  | i :: idxs =>
    let batch := (prompts.drop i).take s
    if batch.all (fun p => (storeLookup store p).isSome) then
      match writeBatches store prompts s idxs with
      | .error e => .error e
      | .ok (recs, c) =>
        .ok ((batch.map (fun p => (storeLookup store p).getD Json.null)) ++ recs, 0 + c)
    else
      .error "TypeError: make_requests() got an unexpected keyword argument engine"

/-- Outcome of a completed run of the main loop: the records written to the
output file, in order, and the number of remote invocations issued. -/
structure RunResult where
  records : List Json
  remoteCalls : Nat

/-- Main processing loop of `__main__` (gpt_api.py, lines 195-216): iterate
`for i in range(0, len(all_prompts), args.request_batch_size)` over the
prompt list with the preloaded `existing_responses` store, writing one
record per prompt of each batch. -/
def runLoop (store : Store) (prompts : List String) (batchSize : Int) :
    Except String RunResult :=
  match pyRangeIdx prompts.length batchSize with
  | .error e => .error e
  | .ok idxs =>
    match writeBatches store prompts batchSize.toNat idxs with
    | .error e => .error e
    | .ok (recs, c) => .ok ⟨recs, c⟩

/-- Model of `line.strip()`: leading and trailing whitespace removed. -/
def pyStrip (s : String) : String :=
  ⟨((s.data.dropWhile Char.isWhitespace).reverse.dropWhile Char.isWhitespace).reverse⟩

/-- Replacement of each literal backslash-n two-character sequence by a real
newline character, on the character list. -/
def unescapeNLAux : List Char → List Char
  | [] => []
  | [c] => [c]
  | c1 :: c2 :: rest =>
    if c1 = '\\' ∧ c2 = 'n' then '\n' :: unescapeNLAux rest
    else c1 :: unescapeNLAux (c2 :: rest)

/-- Model of `line.strip().replace("\\n", "\n")`. -/
def stripUnescape (s : String) : String := ⟨unescapeNLAux (pyStrip s).data⟩

/-- List the non-`.jsonl` branch computes:
`[line.strip().replace("\\n", "\n") for line in fin]`. In the source this
list is assigned to the name `all_prompt` and never read again. -/
def textPrompts (lines : List String) : List String :=
  lines.map stripUnescape

/-- Model of `s.endswith(suffix)`. -/
def strEndsWith (s suffix : String) : Bool :=
  suffix.data.isSuffixOf s.data

/-- Input loading of `__main__` (gpt_api.py, lines 196-200). `parse` stands
for the external `json.loads`. For a `.jsonl` file, `all_prompts` is
`[json.loads(line)["prompt"] for line in fin]` (a missing `prompt` key is a
fatal `KeyError`; the data model restricts prompt values to strings, so a
non-string value is a fatal out-of-model error). For any other file the
comprehension `textPrompts lines` is assigned to the misspelled name
`all_prompt`, and the loop header then reads the undefined name
`all_prompts`, so the run aborts with `NameError` before any batch is
processed. -/
def loadPrompts (parse : String → Except String Json) (fileName : String)
    (lines : List String) : Except String (List String) :=
  if strEndsWith fileName ".jsonl" then
    lines.mapM (fun l =>
      match parse l with
      | .error e => .error e
      | .ok j =>
        match jLookup j "prompt" with
        | some (Json.str p) => .ok p
        | some _ => .error "non-string prompt value (out of model)"
        | none => .error "KeyError: prompt")
  else
    .error "NameError: name all_prompts is not defined"

/-- Record produced by the j-th prompt of a fully cached batch: the value of
`existing_responses[p]` that the cached branch serializes and writes. -/
def cachedRecord (store : Store) (p : String) : Json :=
  (storeLookup store p).getD Json.null

/-- Well-formedness produced by the store loader: every entry was inserted
under its own `prompt` field. -/
def StoreWF (st : Store) : Prop :=
  ∀ kr ∈ st, jLookup kr.2 "prompt" = some kr.1

/-- Contiguous chunks of length `s` (final chunk possibly shorter), written
the way the main loop produces them: one slice per start index of
`range(0, length, s)`. -/
def chunkAt (s : Nat) (l : List String) : List (List String) :=
  (List.range ((l.length + s - 1) / s)).map (fun k => (l.drop (k * s)).take s)

/-- Fixed timestamp source used by the concrete test fixtures. -/
def clock0 : Nat → String := fun _ => "t"

/-- Response fixture with a single completion choice. -/
def respStub : Response := ⟨[.str "c0"], [("id", .str "r0")]⟩

/-- Remote capability that succeeds on every invocation. -/
def remoteOk : GenParams → Nat → Except String Response := fun _ _ => .ok respStub

/-- Remote capability that raises a transient error on every invocation. -/
def remoteAlwaysFail : GenParams → Nat → Except String Response :=
  fun _ _ => .error "APIError: Service Unavailable"

/-- Remote capability that fails transiently on invocations 0, 1, 2 and
succeeds from invocation 3 on: it fails `R = 3` times, then succeeds. -/
def remoteFailsThrice : GenParams → Nat → Except String Response :=
  fun _ i => if i < 3 then .error "RateLimitError" else .ok respStub

/-- Generation-parameter fixture requesting `nn` completions per prompt. -/
def gp (nn : Nat) : GenParams :=
  ⟨500, .num 1, .num 1, .num 0, .num 0, ["\n\n"], 5, nn, nn⟩

/-- Cached output record for prompt "A". -/
def recA : Json := mkRecord "A" none "t1"

/-- Cached output record for prompt "B". -/
def recB : Json := mkRecord "B" none "t2"

/-- Cached output record for prompt "C". -/
def recC : Json := mkRecord "C" none "t3"

/-- Six-element flat choice list, the synthetic response of the spec's
`k = 3, n = 2` reassembly test. -/
def sixChoices : List Json :=
  [.str "c0", .str "c1", .str "c2", .str "c3", .str "c4", .str "c5"]

/-- Response fixture carrying `sixChoices`. -/
def respSix : Response := ⟨sixChoices, [("id", .str "r6")]⟩

/-- Remote capability returning `respSix` on every invocation. -/
def remoteSix : GenParams → Nat → Except String Response := fun _ _ => .ok respSix

/-- Parser stub standing for `json.loads`: wraps every line into an object
with that line as its `prompt` field. -/
def parseStub (l : String) : Except String Json := .ok (.obj [("prompt", .str l)])

/-- Structure eta for the parameter bundle rebuilt at the remote call site
(`max_tokens` is set to `target_length`, which is `max_tokens` itself). -/
lemma genParams_eta (params : GenParams) :
    ({ params with max_tokens := params.max_tokens } : GenParams) = params := rfl

/-- C1: the claim states that with retry budget `R = 3` and a capability
failing transiently on the first three invocations, `make_requests` performs
exactly four invocations with three non-decreasing backoff waits; and that
with an always-failing capability it terminates without an unhandled error.
The code instead performs exactly one invocation (the loop body ends in an
unconditional `break`), sleeps zero times, and lets the transient exception
propagate unhandled; the fourth invocation, which would have succeeded, is
never reached. -/
theorem retry_break_bug :
    make_requests remoteFailsThrice clock0 (.batch ["A"]) (gp 1) 3
      = ⟨1, 0, .error "RateLimitError"⟩
    ∧ remoteFailsThrice (gp 1) 3 = .ok respStub := ⟨rfl, rfl⟩

/-- C2: the claim states that when the retry budget is exhausted the run is
not aborted and every prompt of the batch yields a null-response record. In
the code a failing remote call raises out of `make_requests` (there is no
exception handler), so with the default budget `retries = 3` an
always-failing capability aborts the call with the exception after one
invocation; no record is produced. -/
theorem exhausted_retries_raise_bug :
    make_requests remoteAlwaysFail clock0 (.batch ["A", "B"]) (gp 1) 3
      = ⟨1, 0, .error "APIError: Service Unavailable"⟩ := rfl

/-- C5: the claim states that a batch with at least one uncached prompt is
dispatched to the remote service. In the code the dispatch call is
`make_requests(engine=args.engine, ...)`, but `make_requests` has no
parameter named `engine`, so Python raises `TypeError` at argument binding
and the run aborts with no dispatch: with "A" cached and "B" not, the run
errors. A fully cached batch is replayed from the store with zero remote
calls, as the claim's first half states. -/
theorem partial_cache_typeerror_bug :
    loadStore [recA] [] = .ok [(Json.str "A", recA)]
    ∧ runLoop [(Json.str "A", recA)] ["A", "B"] 2
        = .error "TypeError: make_requests() got an unexpected keyword argument engine"
    ∧ runLoop [(Json.str "A", recA), (Json.str "B", recB)] ["A", "B"] 2
        = .ok ⟨[recA, recB], 0⟩ := ⟨rfl, rfl, rfl⟩

/-- C7: the claim states that a non-`.jsonl` input yields the file's lines
with literal backslash-n unescaped, subsequently processed. The code computes
that list (first conjunct shows the computation on a sample line) but binds
it to the misspelled name `all_prompt`; the loop header then reads the
undefined name `all_prompts`, so a text input aborts with `NameError`
(second conjunct). The `.jsonl` branch works as claimed (third conjunct). -/
theorem text_input_nameerror_bug :
    textPrompts ["a\\nb "] = ["a\nb"]
    ∧ loadPrompts parseStub "prompts.txt" ["a\\nb "]
        = .error "NameError: name all_prompts is not defined"
    ∧ loadPrompts parseStub "data.jsonl" ["A", "B"] = .ok ["A", "B"] :=
  ⟨rfl, rfl, rfl⟩

/-- C3 counterexample: with batch size `-1` the loop range
`range(0, 1, -1)` is empty, so a run over the one-prompt input `["A"]`
completes normally having written zero records — the output does not contain
one record per input prompt. -/
theorem negative_batch_run_drops_records_cex :
    runLoop [] ["A"] (-1) = .ok ⟨[], 0⟩
    ∧ (RunResult.mk [] 0).records.length ≠ (["A"] : List String).length :=
  ⟨rfl, by decide⟩

/-- C8 counterexample: for batch size `-1` the claim demands an error, but
`range(0, 1, -1)` is empty and the splitter yields an empty batch sequence
without any error. -/
theorem negative_batch_size_cex :
    splitBatches ["A"] (-1) = .ok []
    ∧ ∀ e : String, splitBatches ["A"] (-1) ≠ .error e := by
  refine ⟨rfl, fun e h => ?_⟩
  rw [show splitBatches ["A"] (-1) = .ok [] from rfl] at h
  exact Except.noConfusion h

/-- Ceiling-division step: for a nonempty list, the batch count is one more
than the batch count of the list with its first `s` elements removed. -/
lemma numBatches_succ (s n : Nat) (hs : 0 < s) (hn : 0 < n) :
    (n + s - 1) / s = ((n - s) + s - 1) / s + 1 := by
  rcases le_or_lt s n with h | h
  · have h1 : n + s - 1 = ((n - s) + s - 1) + s := by omega
    rw [h1, Nat.add_div_right _ hs]
  · have h2 : n - s = 0 := by omega
    have h3 : (n + s - 1) / s = 1 := Nat.div_eq_of_lt_le (by omega) (by omega)
    have h4 : (s - 1) / s = 0 := Nat.div_eq_of_lt (by omega)
    rw [h2, h3, Nat.zero_add, h4]

/-- Chunking an empty list yields no batches. -/
lemma chunkAt_nil (s : Nat) (hs : 0 < s) : chunkAt s ([] : List String) = [] := by
  unfold chunkAt
  rw [show (([] : List String).length + s - 1) / s = 0 from Nat.div_eq_of_lt (by simp; omega)]
  rfl

/-- Unfolding step of `chunkAt`: a nonempty list splits into its first `s`
elements followed by the chunks of the rest. -/
lemma chunkAt_cons (s : Nat) (hs : 0 < s) (l : List String) (hl : l ≠ []) :
    chunkAt s l = l.take s :: chunkAt s (l.drop s) := by
  have hn : 0 < l.length := List.length_pos.mpr hl
  unfold chunkAt
  rw [List.length_drop, numBatches_succ s l.length hs hn, List.range_succ_eq_map]
  rw [List.map_cons, List.map_map, Nat.zero_mul, List.drop_zero]
  congr 1
  refine List.map_congr_left ?_
  intro k _
  simp only [Function.comp_apply]
  rw [List.drop_drop]
  congr 2
  rw [Nat.succ_mul]
  omega

/-- Batches produced by the main loop's index arithmetic concatenate back to
the input, in order. -/
lemma chunkAt_flatten (s : Nat) (hs : 0 < s) : (l : List String) →
    (chunkAt s l).flatten = l
  | [] => by rw [chunkAt_nil s hs]; rfl
  | x :: xs => by
    rw [chunkAt_cons s hs (x :: xs) (by simp), List.flatten_cons,
      chunkAt_flatten s hs ((x :: xs).drop s)]
    exact List.take_append_drop s (x :: xs)
termination_by l => l.length
decreasing_by simp [List.length_drop]; omega

/-- Every batch except possibly the last has exactly `s` elements. -/
lemma chunkAt_sizes (s : Nat) (hs : 0 < s) : (l : List String) →
    ∀ b ∈ (chunkAt s l).dropLast, b.length = s
  | [] => by rw [chunkAt_nil s hs]; intro b hb; simp at hb
  | x :: xs => by
    rw [chunkAt_cons s hs (x :: xs) (by simp)]
    cases hc : chunkAt s ((x :: xs).drop s) with
    | nil => intro b hb; simp at hb
    | cons c cs =>
      intro b hb
      rw [List.dropLast_cons₂] at hb
      rcases List.mem_cons.mp hb with rfl | hb2
      · have hd : (x :: xs).drop s ≠ [] := by
          intro h0
          rw [h0, chunkAt_nil s hs] at hc
          exact List.noConfusion hc
        have hlen : s < (x :: xs).length := by
          by_contra hle
          push_neg at hle
          exact hd (List.drop_eq_nil_of_le hle)
        rw [List.length_take]
        omega
      · refine chunkAt_sizes s hs ((x :: xs).drop s) b ?_
        rw [hc]
        exact hb2
termination_by l => l.length
decreasing_by simp [List.length_drop]; omega

/-- Reduction of `pyRangeIdx` for a positive step. -/
lemma pyRangeIdx_pos (n : Nat) (S : Int) (hS : 0 < S) :
    pyRangeIdx n S
      = .ok ((List.range ((n + S.toNat - 1) / S.toNat)).map (· * S.toNat)) := by
  unfold pyRangeIdx
  rw [if_neg (by omega), if_neg (by omega)]

/-- Reduction of `pyRangeIdx` for a negative step: the range is empty. -/
lemma pyRangeIdx_neg (n : Nat) (S : Int) (hS : S < 0) : pyRangeIdx n S = .ok [] := by
  unfold pyRangeIdx
  rw [if_neg (by omega), if_pos hS]

/-- Reduction of `pyRangeIdx` for step zero: `ValueError`. -/
lemma pyRangeIdx_zero (n : Nat) :
    pyRangeIdx n 0 = .error "ValueError: range() arg 3 must not be zero" := rfl

/-- Slicing at the loop's start indices is exactly `chunkAt`. -/
lemma idx_batches_eq_chunkAt (prompts : List String) (s : Nat) :
    ((List.range ((prompts.length + s - 1) / s)).map (· * s)).map
      (fun i => (prompts.drop i).take s) = chunkAt s prompts := by
  rw [List.map_map]
  rfl

/-- Characterization of a successful pass over the batch indices: the
records written are the cached records of each batch in order, zero remote
calls were issued, and every prompt of every visited batch was cached. -/
lemma writeBatches_ok (store : Store) (prompts : List String) (s : Nat) :
    (idxs : List Nat) → (recs : List Json) → (c : Nat) →
    writeBatches store prompts s idxs = .ok (recs, c) →
    recs = (idxs.map (fun i => ((prompts.drop i).take s).map (cachedRecord store))).flatten
    ∧ c = 0
    ∧ ∀ i ∈ idxs, ∀ p ∈ (prompts.drop i).take s, (storeLookup store p).isSome = true
  | [], recs, c, h => by
    simp only [writeBatches, Except.ok.injEq, Prod.mk.injEq] at h
    obtain ⟨h1, h2⟩ := h
    subst h1
    subst h2
    exact ⟨rfl, rfl, by simp⟩
  | i :: idxs, recs, c, h => by
    simp only [writeBatches] at h
    split at h
    next hall =>
      split at h
      next e heq => exact absurd h (by simp)
      next recs0 c0 heq =>
        simp only [Except.ok.injEq, Prod.mk.injEq] at h
        obtain ⟨h1, h2⟩ := h
        obtain ⟨hrec0, hc0, hcached0⟩ := writeBatches_ok store prompts s idxs recs0 c0 heq
        subst h1
        subst h2
        refine ⟨?_, by omega, ?_⟩
        · rw [List.map_cons, List.flatten_cons, hrec0]
          rfl
        · intro i2 hi2 p hp
          rcases List.mem_cons.mp hi2 with rfl | hi2b
          · exact List.all_eq_true.mp hall p hp
          · exact hcached0 i2 hi2b p hp
    next hall => exact absurd h (by simp)

/-- Completeness of the cache-replay pass: when every prompt of every batch
is cached, the pass succeeds and writes the cached records of each batch. -/
lemma writeBatches_complete (store : Store) (prompts : List String) (s : Nat) :
    (idxs : List Nat) →
    (∀ i ∈ idxs, ∀ p ∈ (prompts.drop i).take s, (storeLookup store p).isSome = true) →
    writeBatches store prompts s idxs
      = .ok ((idxs.map (fun i => ((prompts.drop i).take s).map (cachedRecord store))).flatten, 0)
  | [], _ => by simp [writeBatches]
  | i :: idxs, hc => by
    have hall : ((prompts.drop i).take s).all (fun p => (storeLookup store p).isSome) = true :=
      List.all_eq_true.mpr (fun p hp => hc i (List.mem_cons_self i idxs) p hp)
    have hrest := writeBatches_complete store prompts s idxs
      (fun i2 hi2 p hp => hc i2 (List.mem_cons_of_mem i hi2) p hp)
    simp only [writeBatches, hall, if_true, hrest]
    rfl

/-- Successful run with a positive batch size: the output is exactly the
cached record of each prompt in input order, zero remote calls were issued,
and every prompt was cached (an uncached prompt would have made its batch
hit the dispatch `TypeError`). -/
lemma runLoop_pos_ok (store : Store) (prompts : List String) (S : Int)
    (out : RunResult) (hS : 0 < S) (h : runLoop store prompts S = .ok out) :
    out.records = prompts.map (cachedRecord store)
    ∧ out.remoteCalls = 0
    ∧ ∀ p ∈ prompts, (storeLookup store p).isSome = true := by
  have hs : 0 < S.toNat := by omega
  unfold runLoop at h
  rw [pyRangeIdx_pos prompts.length S hS] at h
  dsimp only at h
  split at h
  next e heq => exact absurd h (by simp)
  next recs c heq =>
    simp only [Except.ok.injEq] at h
    obtain ⟨hrec, hc, hcached⟩ :=
      writeBatches_ok store prompts S.toNat _ recs c heq
    have hbatches :
        ((List.range ((prompts.length + S.toNat - 1) / S.toNat)).map (· * S.toNat)).map
            (fun i => ((prompts.drop i).take S.toNat).map (cachedRecord store))
          = (chunkAt S.toNat prompts).map (List.map (cachedRecord store)) := by
      rw [← idx_batches_eq_chunkAt prompts S.toNat]
      simp only [List.map_map]
      rfl
    rw [hbatches] at hrec
    rw [← List.map_flatten, chunkAt_flatten S.toNat hs prompts] at hrec
    refine ⟨by rw [← h]; exact hrec, by rw [← h]; exact hc, ?_⟩
    intro p hp
    have hp2 : p ∈ (chunkAt S.toNat prompts).flatten := by
      rw [chunkAt_flatten S.toNat hs prompts]; exact hp
    obtain ⟨b, hb, hpb⟩ := List.mem_flatten.mp hp2
    unfold chunkAt at hb
    obtain ⟨k, hkr, hk⟩ := List.mem_map.mp hb
    refine hcached (k * S.toNat) (List.mem_map.mpr ⟨k, hkr, rfl⟩) p ?_
    rw [hk]
    exact hpb

/-- Completeness of a cache-replay run: when every prompt is cached, a run
with positive batch size succeeds, writes each prompt's cached record in
input order, and issues zero remote calls. -/
lemma runLoop_pos_complete (store : Store) (prompts : List String) (S : Int)
    (hS : 0 < S) (hc : ∀ p ∈ prompts, (storeLookup store p).isSome = true) :
    runLoop store prompts S = .ok ⟨prompts.map (cachedRecord store), 0⟩ := by
  have hs : 0 < S.toNat := by omega
  have hmemb : ∀ i ∈ (List.range ((prompts.length + S.toNat - 1) / S.toNat)).map (· * S.toNat),
      ∀ p ∈ (prompts.drop i).take S.toNat, (storeLookup store p).isSome = true := by
    intro i _ p hp
    exact hc p (List.drop_subset i prompts (List.take_subset S.toNat (prompts.drop i) hp))
  have hw := writeBatches_complete store prompts S.toNat _ hmemb
  unfold runLoop
  rw [pyRangeIdx_pos prompts.length S hS]
  dsimp only
  rw [hw]
  dsimp only
  have hbatches :
      ((List.range ((prompts.length + S.toNat - 1) / S.toNat)).map (· * S.toNat)).map
          (fun i => ((prompts.drop i).take S.toNat).map (cachedRecord store))
        = (chunkAt S.toNat prompts).map (List.map (cachedRecord store)) := by
    rw [← idx_batches_eq_chunkAt prompts S.toNat]
    simp only [List.map_map]
    rfl
  rw [hbatches, ← List.map_flatten, chunkAt_flatten S.toNat hs prompts]

/-- In a well-formed store, a successful lookup returns a record whose
`prompt` field is the looked-up prompt. -/
lemma storeLookup_wf : (st : Store) → StoreWF st → (p : String) → (r : Json) →
    storeLookup st p = some r → jLookup r "prompt" = some (.str p)
  | [], _, p, r, h => by simp [storeLookup] at h
  | (Json.str q, v) :: rest, hwf, p, r, h => by
    rw [storeLookup] at h
    by_cases hq : q = p
    · rw [if_pos hq] at h
      obtain rfl : v = r := Option.some.injEq .. ▸ h
      have := hwf (Json.str q, v) (List.mem_cons_self _ _)
      rw [hq] at this
      exact this
    · rw [if_neg hq] at h
      exact storeLookup_wf rest (fun kr hkr => hwf kr (List.mem_cons_of_mem _ hkr)) p r h
  | (Json.null, v) :: rest, hwf, p, r, h => by
    rw [storeLookup] at h
    exact storeLookup_wf rest (fun kr hkr => hwf kr (List.mem_cons_of_mem _ hkr)) p r h
    intro q hq
    exact Json.noConfusion hq
  | (Json.num m, v) :: rest, hwf, p, r, h => by
    rw [storeLookup] at h
    exact storeLookup_wf rest (fun kr hkr => hwf kr (List.mem_cons_of_mem _ hkr)) p r h
    intro q hq
    exact Json.noConfusion hq
  | (Json.arr xs, v) :: rest, hwf, p, r, h => by
    rw [storeLookup] at h
    exact storeLookup_wf rest (fun kr hkr => hwf kr (List.mem_cons_of_mem _ hkr)) p r h
    intro q hq
    exact Json.noConfusion hq
  | (Json.obj fs, v) :: rest, hwf, p, r, h => by
    rw [storeLookup] at h
    exact storeLookup_wf rest (fun kr hkr => hwf kr (List.mem_cons_of_mem _ hkr)) p r h
    intro q hq
    exact Json.noConfusion hq

/-- The store loader only creates well-formed stores: every record is
inserted under its own `prompt` field. -/
lemma loadStore_wf : (lines : List Json) → (st st2 : Store) → StoreWF st →
    loadStore lines st = .ok st2 → StoreWF st2
  | [], st, st2, hwf, h => by
    rw [loadStore] at h
    obtain rfl : st = st2 := Except.ok.injEq .. ▸ h
    exact hwf
  | r :: rs, st, st2, hwf, h => by
    rw [loadStore] at h
    split at h
    next k hk =>
      refine loadStore_wf rs ((k, r) :: st) st2 ?_ h
      intro kr hkr
      rcases List.mem_cons.mp hkr with rfl | hkr2
      · exact hk
      · exact hwf kr hkr2
    next => exact absurd h (by simp)

/-- Loading a file whose records each carry their own prompt in the
`prompt` field succeeds and yields a store whose lookups return exactly
those records (last occurrence winning, which is the same record whenever
equal prompts map to equal records). -/
lemma loadStore_map (f : String → Json) :
    (prompts : List String) → (st : Store) →
    (∀ p ∈ prompts, jLookup (f p) "prompt" = some (.str p)) →
    ∃ st2, loadStore (prompts.map f) st = .ok st2 ∧
      ∀ q : String, storeLookup st2 q
        = if q ∈ prompts then some (f q) else storeLookup st q
  | [], st, _ => ⟨st, rfl, fun q => by simp⟩
  | p :: ps, st, hf => by
    have hp := hf p (List.mem_cons_self p ps)
    obtain ⟨st2, hload, hlook⟩ :=
      loadStore_map f ps ((Json.str p, f p) :: st)
        (fun q hq => hf q (List.mem_cons_of_mem p hq))
    refine ⟨st2, ?_, ?_⟩
    · rw [List.map_cons, loadStore, hp]
      exact hload
    · intro q
      rw [hlook q]
      by_cases hqps : q ∈ ps
      · rw [if_pos hqps, if_pos (List.mem_cons_of_mem p hqps)]
      · rw [if_neg hqps]
        by_cases hqp : q = p
        · subst hqp
          rw [if_pos (List.mem_cons_self q ps)]
          simp [storeLookup]
        · rw [if_neg (by simp [hqp, hqps])]
          rw [storeLookup, if_neg (fun h => hqp h.symm)]

/-- C3 (amended): for every input prompt sequence and every positive batch
size, a run that completes writes exactly one record per input prompt, in
exactly the input order — record `j` of the output carries prompt `j` of the
input in its `prompt` field, and the counts agree (the two mapped lists are
equal, so there is no duplication or reordering). The store is one produced
by the loader, as in the program. -/
theorem run_records_match_prompts (file : List Json) (st : Store)
    (prompts : List String) (S : Int) (out : RunResult)
    (hload : loadStore file [] = .ok st) (hS : 0 < S)
    (hrun : runLoop st prompts S = .ok out) :
    out.records.map (fun r => jLookup r "prompt")
      = prompts.map (fun p => some (Json.str p)) := by
  obtain ⟨hrec, -, hcached⟩ := runLoop_pos_ok st prompts S out hS hrun
  have hwf : StoreWF st := loadStore_wf file [] st (by intro kr hkr; simp at hkr) hload
  rw [hrec, List.map_map]
  refine List.map_congr_left ?_
  intro p hp
  obtain ⟨r, hr⟩ := Option.isSome_iff_exists.mp (hcached p hp)
  simp only [Function.comp_apply, cachedRecord, hr, Option.getD_some]
  exact storeLookup_wf st hwf p r hr

/-- Witness for `run_records_match_prompts` at a concrete one-prompt input
with its record cached and batch size 20. -/
theorem run_records_match_prompts_witness :
    (RunResult.mk [recA] 0).records.map (fun r => jLookup r "prompt")
      = (["A"] : List String).map (fun p => some (Json.str p)) :=
  run_records_match_prompts [recA] [(Json.str "A", recA)] ["A"] 20 ⟨[recA], 0⟩
    rfl (by decide) rfl

/-- C6: a second run with resumption enabled, the same prompts and the same
batch size, reading the output of a completed first run, succeeds, writes
the byte-identical record sequence, and issues zero remote calls. The first
run's store is one produced by the loader, as in the program. -/
theorem resumption_idempotent (file0 : List Json) (st0 : Store)
    (prompts : List String) (S : Int) (out1 : RunResult)
    (hload : loadStore file0 [] = .ok st0)
    (hrun1 : runLoop st0 prompts S = .ok out1) :
    ∃ st1 out2,
      loadStore out1.records [] = .ok st1 ∧
      runLoop st1 prompts S = .ok out2 ∧
      out2.records = out1.records ∧
      out2.records.map dumps = out1.records.map dumps ∧
      out2.remoteCalls = 0 := by
  rcases lt_trichotomy S 0 with hS | rfl | hS
  · have h1 : runLoop st0 prompts S = .ok ⟨[], 0⟩ := by
      unfold runLoop
      rw [pyRangeIdx_neg prompts.length S hS]
      rfl
    rw [h1] at hrun1
    obtain rfl : RunResult.mk [] 0 = out1 := Except.ok.injEq .. ▸ hrun1
    refine ⟨[], ⟨[], 0⟩, rfl, ?_, rfl, rfl, rfl⟩
    unfold runLoop
    rw [pyRangeIdx_neg prompts.length S hS]
    rfl
  · unfold runLoop at hrun1
    rw [pyRangeIdx_zero prompts.length] at hrun1
    exact absurd hrun1 (by simp)
  · obtain ⟨hrec1, hcall1, hcached0⟩ := runLoop_pos_ok st0 prompts S out1 hS hrun1
    have hwf0 : StoreWF st0 :=
      loadStore_wf file0 [] st0 (by intro kr hkr; simp at hkr) hload
    have hfp : ∀ p ∈ prompts,
        jLookup (cachedRecord st0 p) "prompt" = some (.str p) := by
      intro p hp
      obtain ⟨r, hr⟩ := Option.isSome_iff_exists.mp (hcached0 p hp)
      simp only [cachedRecord, hr, Option.getD_some]
      exact storeLookup_wf st0 hwf0 p r hr
    obtain ⟨st1, hst1, hlook⟩ := loadStore_map (cachedRecord st0) prompts [] hfp
    have hc1 : ∀ p ∈ prompts, (storeLookup st1 p).isSome = true := by
      intro p hp
      rw [hlook p, if_pos hp]
      rfl
    have hsame : prompts.map (cachedRecord st1) = prompts.map (cachedRecord st0) := by
      refine List.map_congr_left ?_
      intro p hp
      simp only [cachedRecord, hlook p, if_pos hp, Option.getD_some]
    refine ⟨st1, ⟨prompts.map (cachedRecord st1), 0⟩, ?_, ?_, ?_, ?_, rfl⟩
    · rw [hrec1]
      exact hst1
    · exact runLoop_pos_complete st1 prompts S hS hc1
    · rw [hsame, hrec1]
    · rw [hsame, hrec1]

/-- Witness for `resumption_idempotent`: three prompts, batch size 2, all
three records cached from a previous output file. -/
theorem resumption_idempotent_witness :
    ∃ st1 out2,
      loadStore (RunResult.mk [recA, recB, recC] 0).records [] = .ok st1 ∧
      runLoop st1 ["A", "B", "C"] 2 = .ok out2 ∧
      out2.records = (RunResult.mk [recA, recB, recC] 0).records ∧
      out2.records.map dumps = (RunResult.mk [recA, recB, recC] 0).records.map dumps ∧
      out2.remoteCalls = 0 :=
  resumption_idempotent [recA, recB, recC]
    [(Json.str "C", recC), (Json.str "B", recB), (Json.str "A", recA)]
    ["A", "B", "C"] 2 ⟨[recA, recB, recC], 0⟩ rfl rfl

/-- C8 (amended): for a positive batch size the produced batches concatenate
to exactly the input in order and every batch except possibly the last has
exactly `S` elements; batch size zero fails with `ValueError`; a negative
batch size produces zero batches and no error. -/
theorem splitBatches_spec (prompts : List String) (S : Int) :
    (0 < S → ∃ bs, splitBatches prompts S = .ok bs ∧ bs.flatten = prompts
      ∧ ∀ b ∈ bs.dropLast, b.length = S.toNat)
    ∧ (S = 0 → splitBatches prompts S
        = .error "ValueError: range() arg 3 must not be zero")
    ∧ (S < 0 → splitBatches prompts S = .ok []) := by
  refine ⟨fun hS => ?_, fun h0 => ?_, fun hneg => ?_⟩
  · have hs : 0 < S.toNat := by omega
    refine ⟨chunkAt S.toNat prompts, ?_, chunkAt_flatten S.toNat hs prompts,
      chunkAt_sizes S.toNat hs prompts⟩
    unfold splitBatches
    rw [pyRangeIdx_pos prompts.length S hS]
    dsimp only
    rw [idx_batches_eq_chunkAt prompts S.toNat]
  · subst h0
    unfold splitBatches
    rw [pyRangeIdx_zero prompts.length]
  · unfold splitBatches
    rw [pyRangeIdx_neg prompts.length S hneg]
    rfl

/-- Witness for `splitBatches_spec` at three prompts and batch size 2. -/
theorem splitBatches_spec_witness :
    ∃ bs, splitBatches ["A", "B", "C"] 2 = .ok bs
      ∧ bs.flatten = ["A", "B", "C"]
      ∧ ∀ b ∈ bs.dropLast, b.length = (2 : Int).toNat :=
  (splitBatches_spec ["A", "B", "C"] 2).1 (by decide)

/-- Length of the reassembled record list equals the batch length. -/
lemma batchRecords_length (resp : Option Response) (clock : Nat → String)
    (nn : Nat) : (ps : List String) → (j : Nat) →
    (batchRecords resp clock nn j ps).length = ps.length
  | [], _ => rfl
  | _ :: ps, j => by
    rw [batchRecords, List.length_cons, List.length_cons,
      batchRecords_length resp clock nn ps (j + 1)]

/-- Element `i` of the reassembled record list started at running index `j`
is the record of prompt `i` with choice slice taken at index `j + i`. -/
lemma batchRecords_getElem (resp : Option Response) (clock : Nat → String)
    (nn : Nat) : (ps : List String) → (j i : Nat) → (h : i < ps.length) →
    (batchRecords resp clock nn j ps)[i]?
      = some (mkRecord (ps.get ⟨i, h⟩)
          (resp.map (fun r => Json.obj
            [("choices", Json.arr ((r.choices.drop ((j + i) * nn)).take nn))]))
          (clock (j + i)))
  | [], j, i, h => by simp at h
  | p :: ps, j, 0, h => by
    rw [batchRecords]
    simp
  | p :: ps, j, i + 1, h => by
    rw [batchRecords]
    have hi : i < ps.length := by simpa using Nat.lt_of_succ_lt_succ h
    rw [List.getElem?_cons_succ,
      batchRecords_getElem resp clock nn ps (j + 1) i hi]
    have harith : j + 1 + i = j + (i + 1) := by omega
    rw [harith]
    rfl

/-- C4: for a batch of `k` prompts with `n` completions per prompt and a
successful (non-null) flat response, the record at 0-based index `j` of the
batch holds exactly the contiguous choice slice
`[j * n, (j + 1) * n)` — `n` elements starting at `j * n` — of the flat
response. -/
theorem reassembled_slice (remote : GenParams → Nat → Except String Response)
    (clock : Nat → String) (ps : List String) (params : GenParams)
    (retries : Int) (r : Response) (j : Nat)
    (hret : 0 ≤ retries) (hr : remote params 0 = .ok r) (hj : j < ps.length) :
    ∃ recs,
      (make_requests remote clock (.batch ps) params retries).outcome = .ok recs
      ∧ recs.length = ps.length
      ∧ recs[j]? = some (mkRecord (ps.get ⟨j, hj⟩)
          (some (Json.obj
            [("choices", Json.arr ((r.choices.drop (j * params.n)).take params.n))]))
          (clock j)) := by
  simp only [make_requests, genParams_eta, hr, if_pos hret]
  refine ⟨batchRecords (some r) clock params.n 0 ps, rfl,
    batchRecords_length (some r) clock params.n ps 0, ?_⟩
  rw [batchRecords_getElem (some r) clock params.n ps 0 j hj]
  simp

/-- Witness for `reassembled_slice`: the spec's reassembly test with
`k = 3`, `n = 2` and a synthetic six-element flat response; the record at
index 1 receives choices 2 and 3. -/
theorem reassembled_slice_witness :
    ∃ recs,
      (make_requests remoteSix clock0 (.batch ["A", "B", "C"]) (gp 2) 3).outcome
        = .ok recs
      ∧ recs.length = (["A", "B", "C"] : List String).length
      ∧ recs[1]? = some (mkRecord ((["A", "B", "C"] : List String).get ⟨1, by decide⟩)
          (some (Json.obj
            [("choices",
              Json.arr ((respSix.choices.drop (1 * (gp 2).n)).take (gp 2).n))]))
          (clock0 1)) :=
  reassembled_slice remoteSix clock0 ["A", "B", "C"] (gp 2) 3 respSix 1
    (by decide) rfl (by decide)

/-- C9: a call with a single prompt string (not a list) and a successful
remote invocation returns a one-element list whose record carries the entire
raw response object unsliced, the prompt and a creation timestamp, after
exactly one remote invocation. -/
theorem single_prompt_raw_response (remote : GenParams → Nat → Except String Response)
    (clock : Nat → String) (p : String) (params : GenParams) (retries : Int)
    (r : Response) (hret : 0 ≤ retries) (hr : remote params 0 = .ok r) :
    make_requests remote clock (.single p) params retries
      = ⟨1, 0, .ok [mkRecord p (some (respToJson r)) (clock 0)]⟩ := by
  simp only [make_requests, genParams_eta, hr, if_pos hret]
  rfl

/-- Witness for `single_prompt_raw_response` at a concrete prompt and
always-succeeding remote capability. -/
theorem single_prompt_raw_witness :
    make_requests remoteOk clock0 (.single "A") (gp 1) 3
      = ⟨1, 0, .ok [mkRecord "A" (some (respToJson respStub)) (clock0 0)]⟩ :=
  single_prompt_raw_response remoteOk clock0 "A" (gp 1) 3 respStub (by decide) rfl

/-- C10: for every retry budget `retries ≥ 0` and fixed remote behavior,
`make_requests` issues exactly one remote invocation, performs no backoff
sleep, and returns a result independent of the retries value. -/
theorem retries_independent (remote : GenParams → Nat → Except String Response)
    (clock : Nat → String) (prompts : Prompts) (params : GenParams)
    (r1 r2 : Int) (h1 : 0 ≤ r1) (h2 : 0 ≤ r2) :
    make_requests remote clock prompts params r1
      = make_requests remote clock prompts params r2
    ∧ (make_requests remote clock prompts params r1).calls = 1
    ∧ (make_requests remote clock prompts params r1).sleeps = 0 := by
  refine ⟨?_, ?_, ?_⟩
  · simp only [make_requests, if_pos h1, if_pos h2]
  · simp only [make_requests, genParams_eta, if_pos h1]
    cases hr : remote params 0 with
    | error e => simp [hr]
    | ok r => cases prompts <;> simp [hr]
  · simp only [make_requests, genParams_eta, if_pos h1]
    cases hr : remote params 0 with
    | error e => simp [hr]
    | ok r => cases prompts <;> simp [hr]

/-- Witness for `retries_independent` comparing retry budgets 0 and 5 on a
fixed remote capability. -/
theorem retries_independent_witness :
    make_requests remoteOk clock0 (.batch ["A"]) (gp 1) 0
      = make_requests remoteOk clock0 (.batch ["A"]) (gp 1) 5
    ∧ (make_requests remoteOk clock0 (.batch ["A"]) (gp 1) 0).calls = 1
    ∧ (make_requests remoteOk clock0 (.batch ["A"]) (gp 1) 0).sleeps = 0 :=
  retries_independent remoteOk clock0 (.batch ["A"]) (gp 1) 0 5
    (by decide) (by decide)
